import Mathlib

/-!
Shallow embedding of `src/app.py` (a Flask web application that logs a
participant in against a Google-Sheets-backed user table, scrapes a
Garmin/Strava activity page, and renders a PDF finisher certificate).

Strings are modelled as `List Char`.  Python string helpers used by the
source (`str.strip`, `str.upper`, `str.split`, `str.replace`,
`int(...)`, `float(...)`) are embedded below; fallible conversions
(`int`, `float`) return `Option` (with `none` modelling a raised
`ValueError`).  Machine floats of the source are idealised as `ℚ`;
network and HTML parsing are abstracted to the data the source actually
reads from the parsed page (the texts of the matched elements, the
`og:description` meta content).
-/

namespace SportWeb

/-- Characters Python `str.strip` removes (space, tab, LF, CR, VT, FF). -/
def pyIsSpace (c : Char) : Bool :=
  c == ' ' || c == '\t' || c == '\n' || c == '\r' || c == Char.ofNat 11 || c == Char.ofNat 12

/-- Python `str.strip()`: drop leading and trailing whitespace. -/
def pyStrip (s : List Char) : List Char :=
  ((s.dropWhile pyIsSpace).reverse.dropWhile pyIsSpace).reverse

/-- Python `str.upper()` restricted to ASCII letters (the source only
uppercases identity-card strings such as `A123456789`). -/
def pyToUpper (c : Char) : Char :=
  if 'a' ≤ c ∧ c ≤ 'z' then Char.ofNat (c.toNat - 32) else c

/-- Python `str.upper()` on a whole string. -/
def pyUpper (s : List Char) : List Char := s.map pyToUpper

/-- Python `str.split(sep)` for a one-character separator: splits at every
occurrence of `sep`, keeping empty chunks, so the result always has
`(number of occurrences) + 1` parts. -/
def splitOnChar (sep : Char) : List Char → List (List Char)
  | [] => [[]]
  | c :: rest =>
    let r := splitOnChar sep rest
    if c = sep then [] :: r
    else
      match r with
      | [] => [[c]]
      | g :: gs => (c :: g) :: gs

/-- Python `str.replace(pat, rep)` (leftmost, non-overlapping), via fuel
bounded by the length of the string; `pat` is nonempty at every call
site in the source (`'km'`, `'m'`, `','`). -/
def replaceStrFuel (pat rep : List Char) : Nat → List Char → List Char
  | 0, s => s
  | _ + 1, [] => []
  | fuel + 1, c :: rest =>
    if pat ≠ [] ∧ pat.isPrefixOf (c :: rest) then
      rep ++ replaceStrFuel pat rep fuel ((c :: rest).drop pat.length)
    else
      c :: replaceStrFuel pat rep fuel rest

/-- Python `str.replace(pat, rep)`. -/
def replaceStr (pat rep s : List Char) : List Char :=
  replaceStrFuel pat rep s.length s

/-- Numeric value of an ASCII digit character. -/
def charDigit (c : Char) : Nat := c.toNat - 48

/-- Value of a string of ASCII digits, most significant digit first
(the semantics of Python `int` on an all-digit string). -/
def digitsVal (s : List Char) : Nat :=
  s.foldl (fun a c => 10 * a + charDigit c) 0

/-- Python `int(str)`: strips whitespace, accepts an optional sign and a
nonempty run of digits, raising `ValueError` (here `none`) otherwise.
(Underscore separators and non-ASCII digits of full Python are not used
by any input the source feeds to `int`.) -/
def pyInt (s : List Char) : Option Int :=
  let t := pyStrip s
  match t with
  | [] => none
  | c :: rest =>
    if c = '-' then
      if rest ≠ [] ∧ rest.all Char.isDigit then some (-(digitsVal rest : Int)) else none
    else if c = '+' then
      if rest ≠ [] ∧ rest.all Char.isDigit then some ((digitsVal rest : Int)) else none
    else if (c :: rest).all Char.isDigit then some ((digitsVal (c :: rest) : Int)) else none

/-- Python `float(str)` on the decimal forms the source feeds it
(optional sign, digits, optional single dot, at least one digit), with
the binary float idealised as an exact rational; `none` models a raised
`ValueError`. -/
def pyFloat (s : List Char) : Option ℚ :=
  let t := pyStrip s
  let sign : ℚ × List Char :=
    match t with
    | '-' :: rest => (-1, rest)
    | '+' :: rest => (1, rest)
    | _ => (1, t)
  let body := sign.2
  let intPart := body.takeWhile Char.isDigit
  let rest := body.dropWhile Char.isDigit
  match rest with
  | [] => if intPart = [] then none else some (sign.1 * (digitsVal intPart : ℚ))
  | '.' :: frac =>
    if frac.all Char.isDigit ∧ (intPart ≠ [] ∨ frac ≠ []) then
      some (sign.1 * ((digitsVal intPart : ℚ) + (digitsVal frac : ℚ) / (10 ^ frac.length)))
    else none
  | _ => none

/-- A nonempty all-digit string: the shape of every numeric component in
the claims about `hms_to_seconds`. -/
def IsDigitStr (s : List Char) : Prop :=
  s ≠ [] ∧ ∀ c ∈ s, c.isDigit = true

instance (s : List Char) : Decidable (IsDigitStr s) := by
  unfold IsDigitStr
  infer_instance

/-- ASCII digit character of `d % 10`. -/
def digitToChar : Nat → Char
  | 0 => '0' | 1 => '1' | 2 => '2' | 3 => '3' | 4 => '4'
  | 5 => '5' | 6 => '6' | 7 => '7' | 8 => '8' | _ => '9'

/-- Decimal rendering of a natural number, with explicit fuel so that the
definition is structurally recursive (fuel `n` always suffices for `n`). -/
def natToCharsAux (fuel n : Nat) : List Char :=
  if n < 10 then [digitToChar n]
  else
    match fuel with
    | 0 => []
    | f + 1 => natToCharsAux f (n / 10) ++ [digitToChar (n % 10)]

/-- Decimal rendering of a natural number (Python `str`/f-string of a
nonnegative integer). -/
def natToChars (n : Nat) : List Char := natToCharsAux n n

/-- Python rendering of an integer (f-string `{i}`). -/
def intToChars (i : Int) : List Char :=
  if i < 0 then '-' :: natToChars i.natAbs else natToChars i.toNat

/-- Python f-string `{i:02}` / `{i:02d}`: pad with a leading zero up to
width two.  (A negative rendering already has width at least two, so no
sign-aware padding is ever needed at width two.) -/
def pad2 (i : Int) : List Char :=
  if (intToChars i).length < 2 then '0' :: intToChars i else intToChars i

/-- A Python value that may or may not be a string, for functions of the
source that test `isinstance(t, str)`. -/
inductive PyStrVal where
  | str (s : List Char)
  | nonstr
deriving DecidableEq

/-- `seconds_to_hms` (src/app.py lines 72-78): format a second count as
`hh:mm:ss`; `none` models the Python argument `None`, producing `N/A`.
`divmod` on an `int` with a positive divisor is floor division, i.e.
`Int.fdiv`/`Int.fmod`. -/
def seconds_to_hms (seconds : Option Int) : List Char :=
  match seconds with
  | none => ('N' :: '/' :: 'A' :: [])
  | some s =>
    let hours := s.fdiv 3600
    let remainder := s.fmod 3600
    let minutes := remainder.fdiv 60
    let secs := remainder.fmod 60
    pad2 hours ++ ':' :: (pad2 minutes ++ ':' :: pad2 secs)

/-- One component step of the `'1h 23m 45s'` branch of
`hms_to_seconds`, for `c` being `'h'` or `'m'`: when `c` occurs,
`int(t.split(c)[0])` is the value and `t` becomes
`t.split(c)[1].strip()`; otherwise the component is 0 and `t` is kept. -/
def hmsCompStep (c : Char) (t : List Char) : Option (Int × List Char) :=
  if t.contains c then
    (pyInt ((splitOnChar c t).getD 0 [])).map
      (fun v => (v, pyStrip ((splitOnChar c t).getD 1 [])))
  else some ((0 : Int), t)

/-- The final seconds component: `if 's' in t: s = int(t.split('s')[0])`
(the source does not update `t` after it). -/
def hmsSecStep (t : List Char) : Option Int :=
  if t.contains 's' then pyInt ((splitOnChar 's' t).getD 0 []) else some (0 : Int)

/-- Core of `hms_to_seconds` (src/app.py lines 80-102) on an actual
string.  Each `int(...)` that can raise `ValueError` is modelled by
`pyInt`, with `none` propagating the exception. -/
def hmsCore (t : List Char) : Option Int :=
  if t.contains 'h' || t.contains 'm' || t.contains 's' then
    -- the `'1h 23m 45s'` branch
    (hmsCompStep 'h' t).bind
    (fun hm =>
      (hmsCompStep 'm' hm.2).bind
      (fun mm =>
        (hmsSecStep mm.2).map (fun s => hm.1 * 3600 + mm.1 * 60 + s)))
  else if t.contains ':' then
    -- the `'hh:mm:ss'` / `'mm:ss'` branch: `list(map(int, t.split(':')))`
    ((splitOnChar ':' t).mapM pyInt).map
      (fun parts =>
        if parts.length = 3 then
          parts.getD 0 0 * 3600 + parts.getD 1 0 * 60 + parts.getD 2 0
        else if parts.length = 2 then parts.getD 0 0 * 60 + parts.getD 1 0
        else 0)
  else some 0

/-- `hms_to_seconds` (src/app.py lines 80-102): a non-string argument
returns 0; a string is parsed by `hmsCore`. -/
def hms_to_seconds : PyStrVal → Option Int
  | .nonstr => some 0
  | .str t => hmsCore t

/-- Apostrophe and double-quote characters used by the pace format
string of the source. -/
def aposChar : Char := Char.ofNat 39

/-- Double-quote character. -/
def quoteChar : Char := Char.ofNat 34

/-- The sentinel pace string of `calculate_pace` for a zero distance or
zero time. -/
def paceSentinel : List Char :=
  '0' :: aposChar :: '0' :: '0' :: quoteChar :: (" /km").toList

/-- The pace format of `calculate_pace` for `pace_seconds_per_km = p`:
`int(p // 60)` is the floor of `p / 60`, and `int(p % 60)` is the floor
of the (nonnegative) remainder `p - 60 * (p // 60)`. -/
def paceFormat (p : ℚ) : List Char :=
  let pace_minutes : Int := Int.floor (p / 60)
  let pace_seconds : Int := Int.floor (p - 60 * pace_minutes)
  intToChars pace_minutes ++ aposChar :: (pad2 pace_seconds ++ quoteChar :: (" /km").toList)

/-- Division that is defined only for a nonzero divisor, modelling that
Python `/` raises `ZeroDivisionError` on a zero divisor. -/
def qdiv (a b : ℚ) : Option ℚ := if b = 0 then none else some (a / b)

/-- `calculate_pace` (src/app.py lines 105-112): floats idealised as `ℚ`;
the division is the checked `qdiv`, so a `none` result would mean an
uncaught `ZeroDivisionError`. -/
def calculate_pace (distance_km total_seconds : ℚ) : Option (List Char) :=
  if distance_km = 0 ∨ total_seconds = 0 then some paceSentinel
  else (qdiv total_seconds distance_km).map paceFormat

/-- Round `q * 100` to an integer, ties to even (the rounding of Python
float formatting, idealised on exact rationals). -/
def round2HalfEven (q : ℚ) : Int :=
  let x := q * 100
  let fl := Int.floor x
  let frac := x - fl
  if frac < 1 / 2 then fl
  else if frac > 1 / 2 then fl + 1
  else if fl % 2 = 0 then fl else fl + 1

/-- Python f-string `{q:.2f}`: two fixed decimals. -/
def formatFixed2 (q : ℚ) : List Char :=
  let n := round2HalfEven (if q < 0 then -q else q)
  (if q < 0 then ('-' :: []) else []) ++
    natToChars (n.toNat / 100) ++ '.' :: pad2 ((n.toNat : Int) % 100)

/-- The result of `get_strava_data` / `get_garmin_data`: a Python dict
that either carries the five statistics keys or the single key
`'error'`.  Note both shapes are non-empty dicts, hence truthy. -/
inductive ScrapeResult where
  | ok (distance time elevation_gain avg_pace source : List Char)
  | err (msg : List Char)
deriving DecidableEq

/-- One attempt of `re.search` at a fixed position, for a pattern of the
shape `lit (cls+) suffix` whose character class does not contain the
first character of `suffix` (true of all three patterns in the source,
so the greedy run needs no backtracking): match `lit` literally, then a
maximal nonempty run of `cls` characters (the capture group), then
`suffix` literally. -/
def reTryAt (lit : List Char) (cls : Char → Bool) (suffix cs : List Char) : Option (List Char) :=
  if lit.isPrefixOf cs then
    let rest := cs.drop lit.length
    let run := rest.takeWhile cls
    if run ≠ [] ∧ suffix.isPrefixOf (rest.drop run.length) then some run else none
  else none

/-- `re.search` for such a pattern: try every start position from the
left and return the first capture group. -/
def reSearch (lit : List Char) (cls : Char → Bool) (suffix : List Char) : List Char → Option (List Char)
  | [] => reTryAt lit cls suffix []
  | c :: rest =>
    match reTryAt lit cls suffix (c :: rest) with
    | some r => some r
    | none => reSearch lit cls suffix rest

/-- Character class `[\d\.]` of the Distance pattern. -/
def isDigitOrDot (c : Char) : Bool := c.isDigit || c == '.'

/-- Character class `[\d:]` of the Time pattern. -/
def isDigitOrColon (c : Char) : Bool := c.isDigit || c == ':'

/-- Error message of `get_strava_data` when fewer than three stat
elements are found (src/app.py line 130). -/
def stravaTooFewMsg : List Char := ("無法在頁面上找到足夠的統計數據，請確認網址是否為公開活動。").toList

/-- Prefix of the `except` message of `get_strava_data` (line 149); the
Python message appends the exception text. -/
def stravaExcMsg : List Char := ("爬取 Strava 資料時發生錯誤: ").toList

/-- Error message of `get_garmin_data` for a missing/empty
`og:description` meta tag (line 170). -/
def garminMetaMsg : List Char := ("無法在 Garmin 頁面中找到活動的 meta 資訊。請確認活動為公開，或網址正確。").toList

/-- Error message of `get_garmin_data` when one of the three regex
searches fails (line 181). -/
def garminRegexMsg : List Char := ("從 meta 資訊中解析數據失敗，可能是 Garmin 更改了格式。").toList

/-- Prefix of the `except` message of `get_garmin_data` (line 208). -/
def garminExcMsg : List Char := ("處理 Garmin 資料時發生未預期的錯誤: ").toList

/-- `get_strava_data` (src/app.py lines 117-149), abstracted over the
page fetch and HTML parse: `stats` is the list of texts of the
`div.Stat_statValue__lmw2H` elements found on the page.  Any raised
`ValueError`/`ZeroDivisionError` is caught by the `except` clause and
becomes an error dict. -/
def get_strava_data (stats : List (List Char)) : ScrapeResult :=
  if stats.length < 3 then .err stravaTooFewMsg
  else
    let distance_str := pyStrip (replaceStr (("km").toList) [] (stats.getD 0 []))
    let time_str := stats.getD 1 []
    let elevation_str :=
      pyStrip (replaceStr ((",").toList) [] (replaceStr (("m").toList) [] (stats.getD 2 [])))
    match pyFloat distance_str with
    | none => .err stravaExcMsg
    | some distance =>
      match hms_to_seconds (.str time_str) with
      | none => .err stravaExcMsg
      | some total_seconds =>
        match pyInt elevation_str with
        | none => .err stravaExcMsg
        | some elevation =>
          match calculate_pace distance (total_seconds : ℚ) with
          | none => .err stravaExcMsg
          | some avg_pace =>
            .ok (formatFixed2 distance ++ (" km").toList)
              time_str
              (intToChars elevation ++ (" m").toList)
              avg_pace
              (("Strava").toList)

/-- `get_garmin_data` (src/app.py lines 151-208), abstracted over the
page fetch: `metaContent` is the `content` attribute of the
`og:description` meta tag (`none` when the tag is absent; the source
also treats an empty content as absent). -/
def get_garmin_data (metaContent : Option (List Char)) : ScrapeResult :=
  match metaContent with
  | none => .err garminMetaMsg
  | some content =>
    if content = [] then .err garminMetaMsg
    else
      match reSearch (("Distance ").toList) isDigitOrDot ((" km").toList) content,
            reSearch (("Time ").toList) isDigitOrColon [] content,
            reSearch (("Elevation ").toList) Char.isDigit ((" m").toList) content with
      | some dist, some time, some elev =>
        (match pyFloat dist with
        | none => .err garminExcMsg
        | some distance_km =>
          match pyInt elev with
          | none => .err garminExcMsg
          | some elevation_m =>
            match hms_to_seconds (.str time) with
            | none => .err garminExcMsg
            | some total_seconds =>
              match calculate_pace distance_km (total_seconds : ℚ) with
              | none => .err garminExcMsg
              | some avg_pace =>
                -- `timedelta(seconds=n).seconds` is `n mod 86400`
                let td_seconds := total_seconds.fmod 86400
                let hours := td_seconds.fdiv 3600
                let remainder := td_seconds.fmod 3600
                let minutes := remainder.fdiv 60
                let secs := remainder.fmod 60
                let formatted_time := pad2 hours ++ ':' :: (pad2 minutes ++ ':' :: pad2 secs)
                .ok (formatFixed2 distance_km ++ (" km").toList)
                  formatted_time
                  (intToChars elevation_m ++ (" m").toList)
                  avg_pace
                  (("Garmin Connect").toList))
      | _, _, _ => .err garminRegexMsg

/-!  ## Worksheet model

The Google worksheet is a grid of string cells, row-major, 1-based in
the gspread API.  `update_cell` on coordinates beyond the current grid
extends it (gspread resizes the sheet); missing cells read back as the
empty string.
-/

/-- A worksheet: rows of string cells.  -/
def Worksheet : Type := List (List (List Char))

/-- Pad a list with `dflt` at the end up to length `n`. -/
def padTo (n : Nat) (dflt : α) (l : List α) : List α :=
  l ++ List.replicate (n - l.length) dflt

/-- Read the cell at 1-based `(r, c)`; absent cells are empty strings. -/
def getCell (ws : Worksheet) (r c : Nat) : List Char :=
  (List.getD ws (r - 1) []).getD (c - 1) []

/-- `worksheet.update_cell(r, c, v)` at 1-based `(r, c)`, growing the
grid as needed. -/
def setCell (ws : Worksheet) (r c : Nat) (v : List Char) : Worksheet :=
  let ws' : List (List (List Char)) := padTo r [] ws
  ws'.set (r - 1) ((padTo c [] (ws'.getD (r - 1) [])).set (c - 1) v)

/-- `worksheet.col_values(c)`: the values of 1-based column `c`, one per
row (we keep one entry per row; gspread trims trailing blanks, which
never changes which row index first carries a given nonblank value). -/
def colValues (c : Nat) (ws : Worksheet) : List (List Char) :=
  ws.map (fun row => row.getD (c - 1) [])

/-- Header cell text `last_time`. -/
def lastTimeHdr : List Char := ("last_time").toList

/-- Header cell text `last_link`. -/
def lastLinkHdr : List Char := ("last_link").toList

/-- Position (1-based) of a header column:
`headers.index(hdr) + 1 if hdr in headers else len(headers) + 1`. -/
def colPos (headers : List (List Char)) (hdr : List Char) : Nat :=
  match headers.indexOf? hdr with
  | some i => i + 1
  | none => headers.length + 1

/-- The 0-based index of the first row whose column-2 value, trimmed and
uppercased, equals the trimmed and uppercased `user_id_card` — the
`id_card_column.index(cleaned_id_card)` of `update_user_log`. -/
def matchRowIdx (ws : Worksheet) (user_id_card : List Char) : Option Nat :=
  let cleaned := pyUpper (pyStrip user_id_card)
  (colValues 2 ws).findIdx? (fun v => pyUpper (pyStrip v) == cleaned)

/-- `update_user_log` (src/app.py lines 219-243): find the first row
whose column-2 id matches, then write the current timestamp into that
row's `last_time` column and the url into its `last_link` column,
creating either header on row 1 when absent.  When gspread is
unavailable, or no row matches, the sheet is untouched.  `now` is the
formatted `datetime.now()` string. -/
def update_user_log (gsOk : Bool) (now : List Char) (ws : Worksheet)
    (user_id_card : List Char) (successful_url : List Char) : Worksheet :=
  if !gsOk then ws
  else
    match matchRowIdx ws user_id_card with
    | none => ws
    | some idx =>
      let match_row := idx + 1
      let headers := ws.getD 0 []
      let time_col := colPos headers lastTimeHdr
      let ws1 := if headers.contains lastTimeHdr then ws else setCell ws 1 time_col lastTimeHdr
      let headers1 := if headers.contains lastTimeHdr then headers else headers ++ [lastTimeHdr]
      let ws2 := setCell ws1 match_row time_col now
      let link_col := colPos headers1 lastLinkHdr
      let ws3 := if headers1.contains lastLinkHdr then ws2 else setCell ws2 1 link_col lastLinkHdr
      setCell ws3 match_row link_col
        (if successful_url.isEmpty then [] else successful_url)

/-!  ## Login -/

/-- One record of the worksheet-backed user table, as read by
`get_all_records` and `pd.DataFrame` (values already passed through
`astype(str)`). -/
structure UserRow where
  id_card : List Char
  phone : List Char
  name : List Char
  user_number : List Char
deriving DecidableEq

/-- Outcome of a POST to `/login`. -/
inductive LoginResult where
  /-- Redirect to the index page with the session populated from the
  matching row. -/
  | toIndex (sess_id_card sess_name sess_user_number : List Char)
  /-- Re-render the login page, flashing `msg`. -/
  | loginPage (msg : List Char)
  /-- Already logged in: plain redirect to the index page. -/
  | alreadyIn
deriving DecidableEq

/-- Flash for an unavailable backing database (line 319). -/
def dbDownMsg : List Char := ("後端資料庫服務異常，請聯繫管理員。").toList

/-- Flash for an unreadable or empty user table (line 328). -/
def dbEmptyMsg : List Char := ("無法讀取或資料庫無使用者資料。").toList

/-- Flash for wrong credentials (line 351). -/
def badCredMsg : List Char := ("身分證號或手機號碼錯誤。").toList

/-- The row mask of the login query (lines 339-342): cleaned id equal to
the cleaned input, and trimmed stored phone equal to the trimmed input
phone or to the input phone with one leading zero removed. -/
def loginRowMatch (id_card_input phone_input phone_input_no_zero : List Char)
    (r : UserRow) : Bool :=
  (pyUpper (pyStrip r.id_card) == id_card_input) &&
    ((pyStrip r.phone == phone_input) || (pyStrip r.phone == phone_input_no_zero))

/-- The POST branch of `login` (src/app.py lines 315-352).  `table` is
`none` when `get_user_data` failed (returned `None`); the `id_card` /
`phone` column-presence check of line 331 always passes for rows of
`UserRow` shape. -/
def login_post (alreadyLoggedIn : Bool) (gsOk : Bool) (table : Option (List UserRow))
    (id_card_form phone_form : List Char) : LoginResult :=
  if alreadyLoggedIn then .alreadyIn
  else if !gsOk then .loginPage dbDownMsg
  else
    let id_card_input := pyUpper (pyStrip id_card_form)
    let phone_input := pyStrip phone_form
    match table with
    | none => .loginPage dbEmptyMsg
    | some users =>
      if users.isEmpty then .loginPage dbEmptyMsg
      else
        let phone_input_no_zero :=
          if phone_input.head? = some '0' then phone_input.tail else phone_input
        match users.find? (loginRowMatch id_card_input phone_input phone_input_no_zero) with
        | some u => .toIndex u.id_card u.name u.user_number
        | none => .loginPage badCredMsg

/-!  ## The /process_activity handler -/

/-- A Python dict key: the scraper dicts use string keys, while
`activities[0]` looks up the integer key `0`. -/
inductive PyKey where
  | str (s : List Char)
  | int (n : Int)
deriving DecidableEq

/-- The key/value items of the dict returned by either scraper
(`get_strava_data` lines 141-147 / 130, `get_garmin_data` lines 199-205
/ 170/181): five string-keyed statistics, or the single key `error`. -/
def scrapeDict : ScrapeResult → List (PyKey × List Char)
  | .ok d t e p s =>
    [(.str (("distance").toList), d), (.str (("time").toList), t),
     (.str (("elevation_gain").toList), e), (.str (("avg_pace").toList), p),
     (.str (("source").toList), s)]
  | .err m => [(.str (("error").toList), m)]

/-- Python `d[k]`: `some` the value when `k` is a key, else `none`
(a raised `KeyError`). -/
def dictLookup (k : PyKey) (d : List (PyKey × List Char)) : Option (List Char) :=
  (d.find? (fun p => p.1 == k)).map (fun p => p.2)

/-- `activity.get(k, dflt)` on a string-keyed dict. -/
def pyDictGetStr (d : List (List Char × List Char)) (k dflt : List Char) : List Char :=
  match d.find? (fun p => p.1 == k) with
  | some p => p.2
  | none => dflt

/-- A canvas drawing call issued by the PDF-generation block. -/
inductive CanvasOp where
  | setFont (font : List Char) (size : ℚ)
  | drawCentredString (x y : ℚ) (text : List Char)
  | showPage
deriving DecidableEq

/-- `reportlab.lib.pagesizes.letter` width in points. -/
def letterW : ℚ := 612

/-- `reportlab.lib.pagesizes.letter` height in points. -/
def letterH : ℚ := 792

/-- The PDF-generation block of `process_activity` (src/app.py lines
284-303): the exact sequence of canvas calls drawing the certificate
for session name/number and the selected activity dict. -/
def buildCertificate (fontAvailable : Bool) (user_name user_number : List Char)
    (activity : List (List Char × List Char)) : List CanvasOp :=
  let font := if fontAvailable then ("NotoSansTC").toList else ("Helvetica").toList
  let na := ("N/A").toList
  [ .setFont font 36,
    .drawCentredString (letterW / 2) (letterH - 100) (("完賽證明").toList),
    .setFont font 18,
    .drawCentredString (letterW / 2) (letterH - 200)
      (("恭喜 ").toList ++ user_name ++ (" (編號: ").toList ++ user_number ++ ((")").toList)),
    .drawCentredString (letterW / 2) (letterH - 250) (("挑戰成功").toList),
    .drawCentredString (letterW / 2) (letterH - 350)
      (("總距離：").toList ++ pyDictGetStr activity (("distance").toList) na),
    .drawCentredString (letterW / 2) (letterH - 400)
      (("總時長：").toList ++ pyDictGetStr activity (("time").toList) na),
    .drawCentredString (letterW / 2) (letterH - 450)
      (("最高海拔：").toList ++ pyDictGetStr activity (("elevation_gain").toList) na),
    .drawCentredString (letterW / 2) (letterH - 500)
      (("平均配速：").toList ++ pyDictGetStr activity (("avg_pace").toList) na),
    .showPage ]

/-- Outcome of a POST to `/process_activity`. -/
inductive PAResult where
  /-- Flash `msg` and redirect to the login page. -/
  | redirectLogin (msg : List Char)
  /-- Flash `msg` and redirect to the index page. -/
  | redirectIndex (msg : List Char)
  /-- A `Response` carrying a generated PDF. -/
  | pdfResponse (mimetype : List Char) (ops : List CanvasOp)
  /-- An uncaught exception escaping the handler (HTTP 500). -/
  | serverError (exc : List Char)
deriving DecidableEq

/-- The session fields `/process_activity` reads. -/
structure PASession where
  user_id_card : Option (List Char)
  user_name : Option (List Char)
  user_number : Option (List Char)

/-- The form fields of the POST. -/
structure PAForm where
  activity_url : Option (List Char)
  url_type : Option (List Char)

/-- The external pages, abstracted: what the two scrapers would read
from the page behind a given url. -/
structure ScrapeWorld where
  garminMeta : List Char → Option (List Char)
  stravaStats : List Char → List (List Char)

/-- Flash for an unauthenticated POST (line 257). -/
def notLoggedInMsg : List Char := ("使用者未登入，請先登入。").toList

/-- Flash for a missing activity url (line 264). -/
def noUrlMsg : List Char := ("請輸入活動網址。").toList

/-- Flash for an invalid platform choice (line 273). -/
def badPlatformMsg : List Char := ("請選擇有效的平台。").toList

/-- Flash of the dead `else` branch for a falsy scrape result
(line 312). -/
def scrapeFailMsg : List Char := ("抓取或解析資料失敗，請確認網址是否正確且頁面為公開。").toList

/-- The uncaught `KeyError` of `activity = activities[0]` (line 278). -/
def keyError0 : List Char := ("KeyError: 0").toList

/-- The `AttributeError` that `activity.get(...)` would raise on a
string value, were the integer lookup ever to succeed. -/
def attrErrorGet : List Char := ("AttributeError: get").toList

/-- Lines 276-313 of `process_activity`, from `if activities:` on.
`activities` is the dict returned by the scraper: it is never empty,
so the truthiness test always succeeds; then `activity = activities[0]`
looks up the integer key `0` in a string-keyed dict and raises
`KeyError`, which nothing catches.  The `update_user_log` call and the
PDF generation behind it are unreachable; `buildCertificate` above
models that block standalone.  The second component records the
arguments of the `update_user_log` call when it is reached. -/
def handleActivities (activities : ScrapeResult) :
    PAResult × Option (List Char × List Char) :=
  if (scrapeDict activities).isEmpty then (.redirectIndex scrapeFailMsg, none)
  else
    match dictLookup (.int 0) (scrapeDict activities) with
    | none => (.serverError keyError0, none)
    | some _ => (.serverError attrErrorGet, none)

/-- `process_activity` (src/app.py lines 254-313).  The result pairs the
HTTP outcome with the `(user_id_card, url)` arguments of the
`update_user_log` call when that call is reached. -/
def process_activity (w : ScrapeWorld) (sess : PASession) (form : PAForm) :
    PAResult × Option (List Char × List Char) :=
  match sess.user_id_card with
  | none => (.redirectLogin notLoggedInMsg, none)
  | some _ =>
    match form.activity_url with
    | none => (.redirectIndex noUrlMsg, none)
    | some url =>
      if url = [] then (.redirectIndex noUrlMsg, none)
      else
        match form.url_type with
        | none => (.redirectIndex badPlatformMsg, none)
        | some ut =>
          if ut = ("garmin").toList then handleActivities (get_garmin_data (w.garminMeta url))
          else if ut = ("strava").toList then handleActivities (get_strava_data (w.stravaStats url))
          else (.redirectIndex badPlatformMsg, none)

/-!  ## Claim-side definitions -/

/-- The set of cells `update_user_log` is allowed to write for a match in
0-based row `idx` (claim C5): the `last_time` and `last_link` cells of
the matched row, plus the row-1 header cell of either column when that
column does not exist yet.  The column positions repeat the computation
of `update_user_log`. -/
def auditCells (ws : Worksheet) (idx : Nat) : List (Nat × Nat) :=
  let headers := ws.getD 0 []
  let time_col := colPos headers lastTimeHdr
  let headers1 := if headers.contains lastTimeHdr then headers else headers ++ [lastTimeHdr]
  let link_col := colPos headers1 lastLinkHdr
  [(idx + 1, time_col), (idx + 1, link_col)] ++
    (if headers.contains lastTimeHdr then [] else [(1, time_col)]) ++
    (if headers1.contains lastLinkHdr then [] else [(1, link_col)])

/-- Whether a login outcome is a success (redirect to index with a
populated session). -/
def isLoginSuccess : LoginResult → Bool
  | .toIndex _ _ _ => true
  | _ => false

/-- Claim C3 as stated: some row matches on trimmed/uppercased id card
and on phone equality (here in the claim's most favourable reading,
after trimming both phones, but with no leading-zero tolerance). -/
def C3RowMatch (idf phonef : List Char) (r : UserRow) : Prop :=
  pyUpper (pyStrip r.id_card) = pyUpper (pyStrip idf) ∧ pyStrip r.phone = pyStrip phonef

instance (idf phonef : List Char) (r : UserRow) : Decidable (C3RowMatch idf phonef r) := by
  unfold C3RowMatch
  infer_instance

/-- The phone comparison in the words of claim C10: the submitted phone
matches the stored one if it equals it exactly, or if the submitted
phone starts with `'0'` and equals it after that single leading zero is
removed.  (Both sides trimmed, as the code trims both columns and
inputs.) -/
def phoneToleratesZero (stored submitted : List Char) : Prop :=
  stored = submitted ∨ (submitted.head? = some '0' ∧ stored = submitted.tail)

/-- The row predicate in the words of the amended claim C3. -/
def AmendedRowMatch (idf phonef : List Char) (r : UserRow) : Prop :=
  pyUpper (pyStrip r.id_card) = pyUpper (pyStrip idf) ∧
    phoneToleratesZero (pyStrip r.phone) (pyStrip phonef)

instance (idf phonef : List Char) (r : UserRow) : Decidable (AmendedRowMatch idf phonef r) := by
  unfold AmendedRowMatch phoneToleratesZero
  infer_instance

/-- The texts drawn on the canvas, in drawing order. -/
def drawnTexts (ops : List CanvasOp) : List (List Char) :=
  ops.filterMap fun op =>
    match op with
    | .drawCentredString _ _ s => some s
    | _ => none

/-- The coordinates at which strings are drawn, in drawing order. -/
def drawnCoords (ops : List CanvasOp) : List (ℚ × ℚ) :=
  ops.filterMap fun op =>
    match op with
    | .drawCentredString x y _ => some (x, y)
    | _ => none

/-- The number of `showPage` calls (the page count of the PDF). -/
def pageCount (ops : List CanvasOp) : Nat :=
  ops.countP fun op =>
    match op with
    | .showPage => true
    | _ => false

/-!  ## Character and digit lemmas -/

theorem ne_of_isDigit {c x : Char} (hc : c.isDigit = true) (hx : x.isDigit = false) :
    c ≠ x := by
  intro he
  rw [he, hx] at hc
  cases hc

theorem pyIsSpace_eq_false_of_isDigit {c : Char} (hc : c.isDigit = true) :
    pyIsSpace c = false := by
  by_contra h
  have hs : pyIsSpace c = true := by
    cases he : pyIsSpace c
    · exact absurd he h
    · rfl
  simp only [pyIsSpace, Bool.or_eq_true, beq_iff_eq] at hs
  rcases hs with ((((h1 | h1) | h1) | h1) | h1) | h1 <;> subst h1 <;> simp [Char.isDigit] at hc

theorem head?_mem {l : List α} {c : α} (h : l.head? = some c) : c ∈ l := by
  cases l with
  | nil => cases h
  | cons a t =>
    simp only [List.head?_cons, Option.some.injEq] at h
    exact h ▸ List.mem_cons_self a t

theorem IsDigitStr.not_mem {s : List Char} (h : IsDigitStr s) {x : Char}
    (hx : x.isDigit = false) : x ∉ s := by
  intro hmem
  exact ne_of_isDigit (h.2 x hmem) hx rfl

/-!  ## splitOnChar lemmas -/

theorem splitOnChar_nil (sep : Char) : splitOnChar sep [] = [[]] := rfl

theorem splitOnChar_ne_nil (sep : Char) (l : List Char) : splitOnChar sep l ≠ [] := by
  induction l with
  | nil => simp [splitOnChar]
  | cons c rest ih =>
    simp only [splitOnChar]
    split
    · simp
    · cases h : splitOnChar sep rest with
      | nil => simp
      | cons g gs => simp

theorem splitOnChar_not_mem {sep : Char} {l : List Char} (h : sep ∉ l) :
    splitOnChar sep l = [l] := by
  induction l with
  | nil => rfl
  | cons c rest ih =>
    have hc : c ≠ sep := fun he => h (he ▸ List.mem_cons_self c rest)
    have hrest : sep ∉ rest := fun hm => h (List.mem_cons_of_mem c hm)
    simp only [splitOnChar, if_neg (fun he => hc he), ih hrest]

theorem splitOnChar_cons (sep c : Char) (rest : List Char) :
    splitOnChar sep (c :: rest) =
      if c = sep then [] :: splitOnChar sep rest
      else
        match splitOnChar sep rest with
        | [] => [[c]]
        | g :: gs => (c :: g) :: gs := rfl

theorem splitOnChar_append {sep : Char} {a : List Char} (b : List Char) (h : sep ∉ a) :
    splitOnChar sep (a ++ sep :: b) = a :: splitOnChar sep b := by
  induction a with
  | nil => simp [splitOnChar]
  | cons c rest ih =>
    have hc : c ≠ sep := fun he => h (he ▸ List.mem_cons_self c rest)
    have hrest : sep ∉ rest := fun hm => h (List.mem_cons_of_mem c hm)
    rw [List.cons_append, splitOnChar_cons, if_neg hc, ih hrest]

theorem splitOnChar_single {sep : Char} {a b : List Char} (ha : sep ∉ a) (hb : sep ∉ b) :
    splitOnChar sep (a ++ sep :: b) = [a, b] := by
  rw [splitOnChar_append b ha, splitOnChar_not_mem hb]

/-!  ## pyStrip lemmas -/

theorem dropWhile_eq_self_of_head {p : Char → Bool} {l : List Char}
    (h : ∀ c, l.head? = some c → p c = false) : l.dropWhile p = l := by
  cases l with
  | nil => rfl
  | cons a t => simp [List.dropWhile_cons, h a rfl]

theorem pyStrip_eq_self {l : List Char}
    (h1 : ∀ c, l.head? = some c → pyIsSpace c = false)
    (h2 : ∀ c, l.getLast? = some c → pyIsSpace c = false) : pyStrip l = l := by
  unfold pyStrip
  rw [dropWhile_eq_self_of_head h1]
  rw [dropWhile_eq_self_of_head (by simpa using h2), List.reverse_reverse]

theorem pyStrip_cons_of_space {c : Char} {l : List Char} (hc : pyIsSpace c = true) :
    pyStrip (c :: l) = pyStrip l := by
  unfold pyStrip
  simp [List.dropWhile_cons, hc]

theorem pyStrip_nil : pyStrip [] = [] := rfl

/-- `pyStrip` is the identity on a nonempty all-digit string. -/
theorem pyStrip_digits {s : List Char} (h : IsDigitStr s) : pyStrip s = s := by
  refine pyStrip_eq_self (fun c hc => ?_) (fun c hc => ?_)
  · exact pyIsSpace_eq_false_of_isDigit (h.2 c (head?_mem hc))
  · have : c ∈ s := by
      have := head?_mem (l := s.reverse) (by simpa using hc)
      simpa using this
    exact pyIsSpace_eq_false_of_isDigit (h.2 c this)

/-!  ## digitsVal / pyInt / natToChars lemmas -/

theorem digitsVal_from (a : Nat) (s : List Char) :
    s.foldl (fun a c => 10 * a + charDigit c) a = a * 10 ^ s.length + digitsVal s := by
  induction s generalizing a with
  | nil => simp [digitsVal]
  | cons c rest ih =>
    simp only [List.foldl_cons, digitsVal, List.length_cons]
    rw [ih (10 * a + charDigit c), ih (10 * 0 + charDigit c)]
    ring

theorem digitsVal_cons (c : Char) (s : List Char) :
    digitsVal (c :: s) = charDigit c * 10 ^ s.length + digitsVal s := by
  unfold digitsVal
  rw [List.foldl_cons, digitsVal_from]
  simp [digitsVal]

theorem digitsVal_append_singleton (s : List Char) (c : Char) :
    digitsVal (s ++ [c]) = 10 * digitsVal s + charDigit c := by
  unfold digitsVal
  rw [List.foldl_append]
  rfl

theorem digitsVal_zero_cons (s : List Char) : digitsVal ('0' :: s) = digitsVal s := by
  rw [digitsVal_cons]
  have h0 : charDigit '0' = 0 := by decide
  simp [h0]

theorem pyInt_digits {s : List Char} (h : IsDigitStr s) :
    pyInt s = some ((digitsVal s : Int)) := by
  unfold pyInt
  rw [pyStrip_digits h]
  obtain ⟨hne, hall⟩ := h
  cases s with
  | nil => exact absurd rfl hne
  | cons c rest =>
    have hc : c.isDigit = true := hall c (List.mem_cons_self c rest)
    have hminus : c ≠ '-' := ne_of_isDigit hc (by decide)
    have hplus : c ≠ '+' := ne_of_isDigit hc (by decide)
    have hdigits : (c :: rest).all Char.isDigit = true := by
      rw [List.all_eq_true]
      exact fun x hx => hall x hx
    simp [hminus, hplus, hdigits]

theorem digitToChar_isDigit (d : Nat) : (digitToChar d).isDigit = true := by
  rcases Nat.lt_or_ge d 9 with h | h
  · interval_cases d <;> decide
  · obtain ⟨k, rfl⟩ : ∃ k, d = k + 9 := ⟨d - 9, by omega⟩
    have h9 : digitToChar (k + 9) = '9' := rfl
    rw [h9]
    decide

theorem charDigit_digitToChar {d : Nat} (h : d < 10) :
    charDigit (digitToChar d) = d := by
  interval_cases d <;> decide

theorem natToCharsAux_spec :
    ∀ fuel n, n ≤ fuel →
      natToCharsAux fuel n ≠ [] ∧ (∀ c ∈ natToCharsAux fuel n, c.isDigit = true) ∧
        digitsVal (natToCharsAux fuel n) = n := by
  intro fuel
  induction fuel with
  | zero =>
    intro n hn
    have : n = 0 := Nat.le_zero.mp hn
    subst this
    exact ⟨by decide, by decide, by decide⟩
  | succ f ih =>
    intro n hn
    by_cases hlt : n < 10
    · simp only [natToCharsAux, if_pos hlt]
      refine ⟨by simp, ?_, ?_⟩
      · intro c hc
        simp only [List.mem_singleton] at hc
        subst hc
        exact digitToChar_isDigit n
      · simpa [digitsVal, charDigit] using charDigit_digitToChar hlt
    · have hrec : n / 10 ≤ f := by
        have h1 : n / 10 < n := Nat.div_lt_self (by omega) (by omega)
        omega
      obtain ⟨ihne, ihdig, ihval⟩ := ih (n / 10) hrec
      simp only [natToCharsAux, if_neg hlt]
      refine ⟨by simp, ?_, ?_⟩
      · intro c hc
        rw [List.mem_append, List.mem_singleton] at hc
        rcases hc with hc | hc
        · exact ihdig c hc
        · subst hc
          exact digitToChar_isDigit (n % 10)
      · rw [digitsVal_append_singleton, ihval,
          charDigit_digitToChar (Nat.mod_lt n (by omega))]
        omega

theorem natToChars_ne_nil (n : Nat) : natToChars n ≠ [] :=
  (natToCharsAux_spec n n le_rfl).1

theorem natToChars_digits (n : Nat) : ∀ c ∈ natToChars n, c.isDigit = true :=
  (natToCharsAux_spec n n le_rfl).2.1

theorem digitsVal_natToChars (n : Nat) : digitsVal (natToChars n) = n :=
  (natToCharsAux_spec n n le_rfl).2.2

theorem intToChars_ofNat (n : Nat) : intToChars (n : Int) = natToChars n := by
  unfold intToChars
  rw [if_neg (by omega)]
  simp

/-- `pad2` of a nonnegative integer is a nonempty all-digit string whose
value is the integer. -/
theorem pad2_digitStr {i : Int} (h : 0 ≤ i) :
    IsDigitStr (pad2 i) ∧ digitsVal (pad2 i) = i.toNat := by
  obtain ⟨n, rfl⟩ : ∃ n : Nat, i = (n : Int) := ⟨i.toNat, by omega⟩
  unfold pad2
  rw [intToChars_ofNat]
  split
  · refine ⟨⟨by simp, ?_⟩, ?_⟩
    · intro c hc
      rcases List.mem_cons.mp hc with hc | hc
      · subst hc; decide
      · exact natToChars_digits n c hc
    · rw [digitsVal_zero_cons, digitsVal_natToChars]
      simp
  · exact ⟨⟨natToChars_ne_nil n, natToChars_digits n⟩, by rw [digitsVal_natToChars]; simp⟩

/-!  ## hms_to_seconds: the colon branch -/

theorem contains_eq_false {l : List Char} {c : Char} (h : c ∉ l) : l.contains c = false := by
  cases he : l.contains c
  · rfl
  · exact absurd (List.mem_of_elem_eq_true he) h

theorem contains_eq_true {l : List Char} {c : Char} (h : c ∈ l) : l.contains c = true :=
  List.elem_eq_true_of_mem h

theorem not_mem_sep_append {x sep : Char} {a b : List Char}
    (ha : x ∉ a) (hb : x ∉ b) (hx : x ≠ sep) : x ∉ a ++ sep :: b := by
  intro hmem
  rcases List.mem_append.mp hmem with h | h
  · exact ha h
  · rcases List.mem_cons.mp h with h | h
    · exact hx h
    · exact hb h

theorem hmsCore_colon3 {p1 p2 p3 : List Char}
    (h1 : IsDigitStr p1) (h2 : IsDigitStr p2) (h3 : IsDigitStr p3) :
    hmsCore (p1 ++ ':' :: (p2 ++ ':' :: p3)) =
      some ((digitsVal p1 : Int) * 3600 + (digitsVal p2 : Int) * 60 + (digitsVal p3 : Int)) := by
  have hco : (c : Char) → c.isDigit = false → c ≠ ':' → c ∉ p1 ++ ':' :: (p2 ++ ':' :: p3) :=
    fun c hc hne =>
      not_mem_sep_append (h1.not_mem hc) (not_mem_sep_append (h2.not_mem hc) (h3.not_mem hc) hne) hne
  have hh := contains_eq_false (hco 'h' (by decide) (by decide))
  have hm := contains_eq_false (hco 'm' (by decide) (by decide))
  have hs := contains_eq_false (hco 's' (by decide) (by decide))
  have hcolon : (p1 ++ ':' :: (p2 ++ ':' :: p3)).contains ':' = true :=
    contains_eq_true (List.mem_append.mpr (Or.inr (List.mem_cons_self _ _)))
  have hnc1 : ':' ∉ p1 := h1.not_mem (by decide)
  have hnc2 : ':' ∉ p2 := h2.not_mem (by decide)
  have hnc3 : ':' ∉ p3 := h3.not_mem (by decide)
  have hsplit : splitOnChar ':' (p1 ++ ':' :: (p2 ++ ':' :: p3)) = [p1, p2, p3] := by
    rw [splitOnChar_append _ hnc1, splitOnChar_single hnc2 hnc3]
  have hmapM : [p1, p2, p3].mapM pyInt =
      some [(digitsVal p1 : Int), (digitsVal p2 : Int), (digitsVal p3 : Int)] := by
    simp only [List.mapM_cons, List.mapM_nil, pyInt_digits h1, pyInt_digits h2,
      pyInt_digits h3, Option.bind_eq_bind, Option.some_bind, Option.pure_def]
  unfold hmsCore
  rw [hh, hm, hs]
  simp only [Bool.or_self, Bool.false_or, if_neg (by simp : ¬ false = true)]
  rw [hcolon, if_pos rfl, hsplit, hmapM]
  simp

theorem hmsCore_colon2 {p1 p2 : List Char} (h1 : IsDigitStr p1) (h2 : IsDigitStr p2) :
    hmsCore (p1 ++ ':' :: p2) =
      some ((digitsVal p1 : Int) * 60 + (digitsVal p2 : Int)) := by
  have hco : (c : Char) → c.isDigit = false → c ≠ ':' → c ∉ p1 ++ ':' :: p2 :=
    fun c hc hne => not_mem_sep_append (h1.not_mem hc) (h2.not_mem hc) hne
  have hh := contains_eq_false (hco 'h' (by decide) (by decide))
  have hm := contains_eq_false (hco 'm' (by decide) (by decide))
  have hs := contains_eq_false (hco 's' (by decide) (by decide))
  have hcolon : (p1 ++ ':' :: p2).contains ':' = true :=
    contains_eq_true (List.mem_append.mpr (Or.inr (List.mem_cons_self _ _)))
  have hsplit : splitOnChar ':' (p1 ++ ':' :: p2) = [p1, p2] :=
    splitOnChar_single (h1.not_mem (by decide)) (h2.not_mem (by decide))
  have hmapM : [p1, p2].mapM pyInt = some [(digitsVal p1 : Int), (digitsVal p2 : Int)] := by
    simp only [List.mapM_cons, List.mapM_nil, pyInt_digits h1, pyInt_digits h2,
      Option.bind_eq_bind, Option.some_bind, Option.pure_def]
  unfold hmsCore
  rw [hh, hm, hs]
  simp only [Bool.or_self, Bool.false_or, if_neg (by simp : ¬ false = true)]
  rw [hcolon, if_pos rfl, hsplit, hmapM]
  simp

theorem seconds_to_hms_ofNat (n : Nat) :
    seconds_to_hms (some (n : Int)) =
      pad2 ((n / 3600 : Nat) : Int) ++ ':' ::
        (pad2 ((n % 3600 / 60 : Nat) : Int) ++ ':' :: pad2 ((n % 3600 % 60 : Nat) : Int)) := by
  have h1 : (n : Int).fdiv 3600 = ((n / 3600 : Nat) : Int) := (Int.ofNat_fdiv n 3600).symm
  have h2 : (n : Int).fmod 3600 = ((n % 3600 : Nat) : Int) := (Int.ofNat_fmod n 3600).symm
  have h3 : ((n % 3600 : Nat) : Int).fdiv 60 = ((n % 3600 / 60 : Nat) : Int) :=
    (Int.ofNat_fdiv (n % 3600) 60).symm
  have h4 : ((n % 3600 : Nat) : Int).fmod 60 = ((n % 3600 % 60 : Nat) : Int) :=
    (Int.ofNat_fmod (n % 3600) 60).symm
  change pad2 ((n : Int).fdiv 3600) ++ ':' ::
      (pad2 (((n : Int).fmod 3600).fdiv 60) ++ ':' :: pad2 (((n : Int).fmod 3600).fmod 60)) = _
  rw [h1, h2, h3, h4]

/-!  ## hms_to_seconds: the h/m/s branch -/

theorem hmsCompStep_split {c : Char} {d rest : List Char}
    (hd : IsDigitStr d) (hcd : c ∉ d) (hcr : c ∉ rest) :
    hmsCompStep c (d ++ c :: rest) = some ((digitsVal d : Int), pyStrip rest) := by
  have hc : (d ++ c :: rest).contains c = true :=
    contains_eq_true (List.mem_append.mpr (Or.inr (List.mem_cons_self _ _)))
  have hsplit : splitOnChar c (d ++ c :: rest) = [d, rest] := splitOnChar_single hcd hcr
  simp [hmsCompStep, hc, hsplit, pyInt_digits hd]

theorem hmsCompStep_skip {c : Char} {t : List Char} (h : c ∉ t) :
    hmsCompStep c t = some ((0 : Int), t) := by
  unfold hmsCompStep
  rw [contains_eq_false h]
  simp

theorem hmsSecStep_split {d : List Char} (hd : IsDigitStr d) (hsd : 's' ∉ d) :
    hmsSecStep (d ++ 's' :: []) = some ((digitsVal d : Int)) := by
  have hc : (d ++ 's' :: []).contains 's' = true :=
    contains_eq_true (List.mem_append.mpr (Or.inr (List.mem_cons_self _ _)))
  have hsplit : splitOnChar 's' (d ++ 's' :: []) = [d, []] :=
    splitOnChar_single hsd (by simp)
  simp [hmsSecStep, hc, hsplit, pyInt_digits hd]

theorem hmsSecStep_skip {t : List Char} (h : 's' ∉ t) : hmsSecStep t = some 0 := by
  unfold hmsSecStep
  rw [contains_eq_false h]
  simp

/-- Stripping a single leading blank off a block that starts with a
digit string and ends in a non-blank character. -/
theorem pyStrip_sp {d z : List Char} (hd : IsDigitStr d)
    (hz : ∀ c, (d ++ z).getLast? = some c → pyIsSpace c = false) :
    pyStrip (' ' :: (d ++ z)) = d ++ z := by
  rw [pyStrip_cons_of_space (by decide)]
  refine pyStrip_eq_self (fun c hc => ?_) hz
  obtain ⟨a, t, rfl⟩ : ∃ a t, d = a :: t := by
    cases d with
    | nil => exact absurd rfl hd.1
    | cons a t => exact ⟨a, t, rfl⟩
  simp only [List.cons_append, List.head?_cons, Option.some.injEq] at hc
  subst hc
  exact pyIsSpace_eq_false_of_isDigit (hd.2 _ (List.mem_cons_self _ _))

theorem not_mem_cons {x c : Char} {l : List Char} (h1 : x ≠ c) (h2 : x ∉ l) :
    x ∉ c :: l := by
  intro h
  rcases List.mem_cons.mp h with h | h
  · exact h1 h
  · exact h2 h

theorem not_mem_app {x : Char} {a b : List Char} (h1 : x ∉ a) (h2 : x ∉ b) :
    x ∉ a ++ b := by
  intro h
  rcases List.mem_append.mp h with h | h
  · exact h1 h
  · exact h2 h

theorem hmsCore_hms {hd md sd : List Char}
    (h1 : IsDigitStr hd) (h2 : IsDigitStr md) (h3 : IsDigitStr sd) :
    hmsCore (hd ++ 'h' :: (' ' :: (md ++ 'm' :: (' ' :: (sd ++ 's' :: []))))) =
      some ((digitsVal hd : Int) * 3600 + (digitsVal md : Int) * 60 + (digitsVal sd : Int)) := by
  have hcond : (hd ++ 'h' :: (' ' :: (md ++ 'm' :: (' ' :: (sd ++ 's' :: []))))).contains 'h' = true :=
    contains_eq_true (List.mem_append.mpr (Or.inr (List.mem_cons_self _ _)))
  have hh_rest : 'h' ∉ ' ' :: (md ++ 'm' :: (' ' :: (sd ++ 's' :: []))) :=
    not_mem_cons (by decide)
      (not_mem_app (h2.not_mem (by decide))
        (not_mem_cons (by decide)
          (not_mem_cons (by decide)
            (not_mem_app (h3.not_mem (by decide))
              (not_mem_cons (by decide) (List.not_mem_nil _))))))
  have hstep1 : hmsCompStep 'h' (hd ++ 'h' :: (' ' :: (md ++ 'm' :: (' ' :: (sd ++ 's' :: []))))) =
      some ((digitsVal hd : Int), pyStrip (' ' :: (md ++ 'm' :: (' ' :: (sd ++ 's' :: []))))) :=
    hmsCompStep_split h1 (h1.not_mem (by decide)) hh_rest
  have hlast1 : (md ++ 'm' :: (' ' :: (sd ++ 's' :: []))).getLast? = some 's' := by
    simp [List.getLast?_cons]
  have hstrip1 : pyStrip (' ' :: (md ++ 'm' :: (' ' :: (sd ++ 's' :: [])))) =
      md ++ 'm' :: (' ' :: (sd ++ 's' :: [])) := by
    refine pyStrip_sp h2 (fun c hc => ?_)
    rw [hlast1] at hc
    cases hc
    decide
  have hm_rest : 'm' ∉ ' ' :: (sd ++ 's' :: []) :=
    not_mem_cons (by decide)
      (not_mem_app (h3.not_mem (by decide)) (not_mem_cons (by decide) (List.not_mem_nil _)))
  have hstep2 : hmsCompStep 'm' (md ++ 'm' :: (' ' :: (sd ++ 's' :: []))) =
      some ((digitsVal md : Int), pyStrip (' ' :: (sd ++ 's' :: []))) :=
    hmsCompStep_split h2 (h2.not_mem (by decide)) hm_rest
  have hstrip2 : pyStrip (' ' :: (sd ++ 's' :: [])) = sd ++ 's' :: [] := by
    refine pyStrip_sp h3 (fun c hc => ?_)
    rw [List.getLast?_concat] at hc
    cases hc
    decide
  have hstep3 : hmsSecStep (sd ++ 's' :: []) = some ((digitsVal sd : Int)) :=
    hmsSecStep_split h3 (h3.not_mem (by decide))
  unfold hmsCore
  rw [hcond]
  simp only [Bool.true_or, eq_self_iff_true, if_true, hstep1, Option.some_bind, hstrip1,
    hstep2, hstrip2, hstep3]
  rfl

theorem hmsCore_hm {hd md : List Char} (h1 : IsDigitStr hd) (h2 : IsDigitStr md) :
    hmsCore (hd ++ 'h' :: (' ' :: (md ++ 'm' :: []))) =
      some ((digitsVal hd : Int) * 3600 + (digitsVal md : Int) * 60) := by
  have hcond : (hd ++ 'h' :: (' ' :: (md ++ 'm' :: []))).contains 'h' = true :=
    contains_eq_true (List.mem_append.mpr (Or.inr (List.mem_cons_self _ _)))
  have hh_rest : 'h' ∉ ' ' :: (md ++ 'm' :: []) :=
    not_mem_cons (by decide)
      (not_mem_app (h2.not_mem (by decide)) (not_mem_cons (by decide) (List.not_mem_nil _)))
  have hstep1 : hmsCompStep 'h' (hd ++ 'h' :: (' ' :: (md ++ 'm' :: []))) =
      some ((digitsVal hd : Int), pyStrip (' ' :: (md ++ 'm' :: []))) :=
    hmsCompStep_split h1 (h1.not_mem (by decide)) hh_rest
  have hstrip1 : pyStrip (' ' :: (md ++ 'm' :: [])) = md ++ 'm' :: [] := by
    refine pyStrip_sp h2 (fun c hc => ?_)
    rw [List.getLast?_concat] at hc
    cases hc
    decide
  have hstep2 : hmsCompStep 'm' (md ++ 'm' :: []) =
      some ((digitsVal md : Int), pyStrip []) :=
    hmsCompStep_split h2 (h2.not_mem (by decide)) (List.not_mem_nil _)
  have hstep3 : hmsSecStep (pyStrip []) = some 0 := by
    rw [pyStrip_nil]
    exact hmsSecStep_skip (List.not_mem_nil _)
  unfold hmsCore
  rw [hcond]
  simp only [Bool.true_or, eq_self_iff_true, if_true, hstep1, Option.some_bind, hstrip1,
    hstep2, hstep3]
  simp

theorem hmsCore_hs {hd sd : List Char} (h1 : IsDigitStr hd) (h3 : IsDigitStr sd) :
    hmsCore (hd ++ 'h' :: (' ' :: (sd ++ 's' :: []))) =
      some ((digitsVal hd : Int) * 3600 + (digitsVal sd : Int)) := by
  have hcond : (hd ++ 'h' :: (' ' :: (sd ++ 's' :: []))).contains 'h' = true :=
    contains_eq_true (List.mem_append.mpr (Or.inr (List.mem_cons_self _ _)))
  have hh_rest : 'h' ∉ ' ' :: (sd ++ 's' :: []) :=
    not_mem_cons (by decide)
      (not_mem_app (h3.not_mem (by decide)) (not_mem_cons (by decide) (List.not_mem_nil _)))
  have hstep1 : hmsCompStep 'h' (hd ++ 'h' :: (' ' :: (sd ++ 's' :: []))) =
      some ((digitsVal hd : Int), pyStrip (' ' :: (sd ++ 's' :: []))) :=
    hmsCompStep_split h1 (h1.not_mem (by decide)) hh_rest
  have hstrip1 : pyStrip (' ' :: (sd ++ 's' :: [])) = sd ++ 's' :: [] := by
    refine pyStrip_sp h3 (fun c hc => ?_)
    rw [List.getLast?_concat] at hc
    cases hc
    decide
  have hstep2 : hmsCompStep 'm' (sd ++ 's' :: []) = some ((0 : Int), sd ++ 's' :: []) :=
    hmsCompStep_skip
      (not_mem_app (h3.not_mem (by decide)) (not_mem_cons (by decide) (List.not_mem_nil _)))
  have hstep3 : hmsSecStep (sd ++ 's' :: []) = some ((digitsVal sd : Int)) :=
    hmsSecStep_split h3 (h3.not_mem (by decide))
  unfold hmsCore
  rw [hcond]
  simp only [Bool.true_or, eq_self_iff_true, if_true, hstep1, Option.some_bind, hstrip1,
    hstep2, hstep3]
  simp

theorem hmsCore_ms {md sd : List Char} (h2 : IsDigitStr md) (h3 : IsDigitStr sd) :
    hmsCore (md ++ 'm' :: (' ' :: (sd ++ 's' :: []))) =
      some ((digitsVal md : Int) * 60 + (digitsVal sd : Int)) := by
  have hcondm : (md ++ 'm' :: (' ' :: (sd ++ 's' :: []))).contains 'm' = true :=
    contains_eq_true (List.mem_append.mpr (Or.inr (List.mem_cons_self _ _)))
  have hnh : 'h' ∉ md ++ 'm' :: (' ' :: (sd ++ 's' :: [])) :=
    not_mem_app (h2.not_mem (by decide))
      (not_mem_cons (by decide)
        (not_mem_cons (by decide)
          (not_mem_app (h3.not_mem (by decide))
            (not_mem_cons (by decide) (List.not_mem_nil _)))))
  have hstep1 : hmsCompStep 'h' (md ++ 'm' :: (' ' :: (sd ++ 's' :: []))) =
      some ((0 : Int), md ++ 'm' :: (' ' :: (sd ++ 's' :: []))) :=
    hmsCompStep_skip hnh
  have hm_rest : 'm' ∉ ' ' :: (sd ++ 's' :: []) :=
    not_mem_cons (by decide)
      (not_mem_app (h3.not_mem (by decide)) (not_mem_cons (by decide) (List.not_mem_nil _)))
  have hstep2 : hmsCompStep 'm' (md ++ 'm' :: (' ' :: (sd ++ 's' :: []))) =
      some ((digitsVal md : Int), pyStrip (' ' :: (sd ++ 's' :: []))) :=
    hmsCompStep_split h2 (h2.not_mem (by decide)) hm_rest
  have hstrip2 : pyStrip (' ' :: (sd ++ 's' :: [])) = sd ++ 's' :: [] := by
    refine pyStrip_sp h3 (fun c hc => ?_)
    rw [List.getLast?_concat] at hc
    cases hc
    decide
  have hstep3 : hmsSecStep (sd ++ 's' :: []) = some ((digitsVal sd : Int)) :=
    hmsSecStep_split h3 (h3.not_mem (by decide))
  unfold hmsCore
  rw [hcondm]
  simp only [Bool.or_true, Bool.true_or, eq_self_iff_true, if_true, hstep1,
    Option.some_bind, hstep2, hstrip2, hstep3]
  simp

theorem hmsCore_h {hd : List Char} (h1 : IsDigitStr hd) :
    hmsCore (hd ++ 'h' :: []) = some ((digitsVal hd : Int) * 3600) := by
  have hcond : (hd ++ 'h' :: []).contains 'h' = true :=
    contains_eq_true (List.mem_append.mpr (Or.inr (List.mem_cons_self _ _)))
  have hstep1 : hmsCompStep 'h' (hd ++ 'h' :: []) =
      some ((digitsVal hd : Int), pyStrip []) :=
    hmsCompStep_split h1 (h1.not_mem (by decide)) (List.not_mem_nil _)
  have hstep2 : hmsCompStep 'm' (pyStrip []) = some ((0 : Int), pyStrip []) := by
    rw [pyStrip_nil]
    exact hmsCompStep_skip (List.not_mem_nil _)
  have hstep3 : hmsSecStep (pyStrip []) = some 0 := by
    rw [pyStrip_nil]
    exact hmsSecStep_skip (List.not_mem_nil _)
  unfold hmsCore
  rw [hcond]
  simp only [Bool.true_or, eq_self_iff_true, if_true, hstep1, Option.some_bind,
    hstep2, hstep3]
  simp

theorem hmsCore_m {md : List Char} (h2 : IsDigitStr md) :
    hmsCore (md ++ 'm' :: []) = some ((digitsVal md : Int) * 60) := by
  have hcondm : (md ++ 'm' :: []).contains 'm' = true :=
    contains_eq_true (List.mem_append.mpr (Or.inr (List.mem_cons_self _ _)))
  have hstep1 : hmsCompStep 'h' (md ++ 'm' :: []) = some ((0 : Int), md ++ 'm' :: []) :=
    hmsCompStep_skip
      (not_mem_app (h2.not_mem (by decide)) (not_mem_cons (by decide) (List.not_mem_nil _)))
  have hstep2 : hmsCompStep 'm' (md ++ 'm' :: []) =
      some ((digitsVal md : Int), pyStrip []) :=
    hmsCompStep_split h2 (h2.not_mem (by decide)) (List.not_mem_nil _)
  have hstep3 : hmsSecStep (pyStrip []) = some 0 := by
    rw [pyStrip_nil]
    exact hmsSecStep_skip (List.not_mem_nil _)
  unfold hmsCore
  rw [hcondm]
  simp only [Bool.or_true, Bool.true_or, eq_self_iff_true, if_true, hstep1,
    Option.some_bind, hstep2, hstep3]
  simp

theorem hmsCore_s {sd : List Char} (h3 : IsDigitStr sd) :
    hmsCore (sd ++ 's' :: []) = some ((digitsVal sd : Int)) := by
  have hconds : (sd ++ 's' :: []).contains 's' = true :=
    contains_eq_true (List.mem_append.mpr (Or.inr (List.mem_cons_self _ _)))
  have hstep1 : hmsCompStep 'h' (sd ++ 's' :: []) = some ((0 : Int), sd ++ 's' :: []) :=
    hmsCompStep_skip
      (not_mem_app (h3.not_mem (by decide)) (not_mem_cons (by decide) (List.not_mem_nil _)))
  have hstep2 : hmsCompStep 'm' (sd ++ 's' :: []) = some ((0 : Int), sd ++ 's' :: []) :=
    hmsCompStep_skip
      (not_mem_app (h3.not_mem (by decide)) (not_mem_cons (by decide) (List.not_mem_nil _)))
  have hstep3 : hmsSecStep (sd ++ 's' :: []) = some ((digitsVal sd : Int)) :=
    hmsSecStep_split h3 (h3.not_mem (by decide))
  unfold hmsCore
  rw [hconds]
  simp only [Bool.or_true, Bool.true_or, eq_self_iff_true, if_true, hstep1,
    Option.some_bind, hstep2, hstep3]
  simp

/-!  ## Claim C6 -/

/-- Claim C6: `hms_to_seconds` maps a string of the form `Hh Mm Ss`
(any subset of the three components present, numbers written as
nonempty digit strings) to `H*3600 + M*60 + S`, a colon string
`hh:mm:ss` to `h*3600 + m*60 + s`, a colon string `mm:ss` to
`m*60 + s`, and returns 0 for any non-string input. -/
theorem C6_hms_to_seconds_forms (hd md sd : List Char)
    (h1 : IsDigitStr hd) (h2 : IsDigitStr md) (h3 : IsDigitStr sd) :
    hms_to_seconds .nonstr = some 0 ∧
    hms_to_seconds (.str (hd ++ 'h' :: (' ' :: (md ++ 'm' :: (' ' :: (sd ++ 's' :: [])))))) =
      some ((digitsVal hd : Int) * 3600 + (digitsVal md : Int) * 60 + (digitsVal sd : Int)) ∧
    hms_to_seconds (.str (hd ++ 'h' :: (' ' :: (md ++ 'm' :: [])))) =
      some ((digitsVal hd : Int) * 3600 + (digitsVal md : Int) * 60) ∧
    hms_to_seconds (.str (hd ++ 'h' :: (' ' :: (sd ++ 's' :: [])))) =
      some ((digitsVal hd : Int) * 3600 + (digitsVal sd : Int)) ∧
    hms_to_seconds (.str (md ++ 'm' :: (' ' :: (sd ++ 's' :: [])))) =
      some ((digitsVal md : Int) * 60 + (digitsVal sd : Int)) ∧
    hms_to_seconds (.str (hd ++ 'h' :: [])) = some ((digitsVal hd : Int) * 3600) ∧
    hms_to_seconds (.str (md ++ 'm' :: [])) = some ((digitsVal md : Int) * 60) ∧
    hms_to_seconds (.str (sd ++ 's' :: [])) = some ((digitsVal sd : Int)) ∧
    hms_to_seconds (.str (hd ++ ':' :: (md ++ ':' :: sd))) =
      some ((digitsVal hd : Int) * 3600 + (digitsVal md : Int) * 60 + (digitsVal sd : Int)) ∧
    hms_to_seconds (.str (md ++ ':' :: sd)) =
      some ((digitsVal md : Int) * 60 + (digitsVal sd : Int)) :=
  ⟨rfl, hmsCore_hms h1 h2 h3, hmsCore_hm h1 h2, hmsCore_hs h1 h3, hmsCore_ms h2 h3,
    hmsCore_h h1, hmsCore_m h2, hmsCore_s h3, hmsCore_colon3 h1 h2 h3, hmsCore_colon2 h2 h3⟩

/-- Witness for C6 at the concrete inputs `1h 23m 45s` and `01:02:03`. -/
theorem C6_hms_to_seconds_forms_witness :
    IsDigitStr (("1").toList) ∧ IsDigitStr (("02").toList) ∧ IsDigitStr (("45").toList) ∧
    hms_to_seconds (.str ((("1").toList) ++ 'h' ::
        (' ' :: ((("02").toList) ++ 'm' :: (' ' :: ((("45").toList) ++ 's' :: [])))))) =
      some 3765 ∧
    hms_to_seconds (.str ((("1").toList) ++ ':' :: ((("02").toList) ++ ':' :: (("45").toList)))) =
      some 3765 := by
  refine ⟨by decide, by decide, by decide, ?_, ?_⟩
  · have h := (C6_hms_to_seconds_forms (("1").toList) (("02").toList) (("45").toList)
      (by decide) (by decide) (by decide)).2.1
    rw [h]
    decide
  · have h := (C6_hms_to_seconds_forms (("1").toList) (("02").toList) (("45").toList)
      (by decide) (by decide) (by decide)).2.2.2.2.2.2.2.2.1
    rw [h]
    decide

/-!  ## Claim C8 -/

/-- Claim C8: for every nonnegative integer `n`,
`hms_to_seconds(seconds_to_hms(n)) = n` — formatting a second count as
`hh:mm:ss` and parsing it back is the identity. -/
theorem C8_seconds_roundtrip (n : Nat) :
    hms_to_seconds (.str (seconds_to_hms (some (n : Int)))) = some ((n : Int)) := by
  rw [seconds_to_hms_ofNat]
  have d1 := pad2_digitStr (i := ((n / 3600 : Nat) : Int)) (Int.ofNat_nonneg _)
  have d2 := pad2_digitStr (i := ((n % 3600 / 60 : Nat) : Int)) (Int.ofNat_nonneg _)
  have d3 := pad2_digitStr (i := ((n % 3600 % 60 : Nat) : Int)) (Int.ofNat_nonneg _)
  have h := hmsCore_colon3 d1.1 d2.1 d3.1
  rw [show hms_to_seconds (.str (pad2 ((n / 3600 : Nat) : Int) ++ ':' ::
      (pad2 ((n % 3600 / 60 : Nat) : Int) ++ ':' :: pad2 ((n % 3600 % 60 : Nat) : Int)))) =
      hmsCore (pad2 ((n / 3600 : Nat) : Int) ++ ':' ::
      (pad2 ((n % 3600 / 60 : Nat) : Int) ++ ':' :: pad2 ((n % 3600 % 60 : Nat) : Int))) from rfl]
  rw [h, d1.2, d2.2, d3.2]
  congr 1
  push_cast
  omega

/-!  ## Claim C9 -/

/-- Claim C9: `calculate_pace` never divides by zero: it always returns
a value (no `ZeroDivisionError`, i.e. the checked division is never
reached with a zero divisor); when `distance_km = 0` or
`total_seconds = 0` it returns the sentinel `0'00" /km` without
performing the division, and otherwise it returns the pace formatted
from `total_seconds / distance_km`. -/
theorem C9_calculate_pace_safe (d t : ℚ) :
    (calculate_pace d t).isSome = true ∧
    ((d = 0 ∨ t = 0) → calculate_pace d t = some paceSentinel) ∧
    (d ≠ 0 → t ≠ 0 → calculate_pace d t = some (paceFormat (t / d))) := by
  unfold calculate_pace qdiv
  by_cases h : d = 0 ∨ t = 0
  · rw [if_pos h]
    exact ⟨rfl, fun _ => rfl, fun hd ht => absurd h (by tauto)⟩
  · rw [if_neg h]
    have hd : ¬ d = 0 := fun he => h (Or.inl he)
    rw [if_neg hd]
    exact ⟨rfl, fun hc => absurd hc h, fun _ _ => rfl⟩

/-- Witness for C9 at `(0, 5)` (sentinel branch) and `(2, 600)`
(division branch). -/
theorem C9_calculate_pace_safe_witness :
    calculate_pace 0 5 = some paceSentinel ∧ calculate_pace 2 600 = some (paceFormat 300) := by
  constructor
  · exact (C9_calculate_pace_safe 0 5).2.1 (Or.inl rfl)
  · have h := (C9_calculate_pace_safe 2 600).2.2 (by norm_num) (by norm_num)
    rw [show (600 : ℚ) / 2 = 300 by norm_num] at h
    exact h

/-!  ## Worksheet frame lemmas -/

theorem padTo_length (n : Nat) (d : α) (l : List α) :
    (padTo n d l).length = max n l.length := by
  unfold padTo
  rw [List.length_append, List.length_replicate]
  omega

theorem getD_padTo (n : Nat) (d : α) (l : List α) (i : Nat) :
    (padTo n d l).getD i d = l.getD i d := by
  unfold padTo
  rcases Nat.lt_or_ge i l.length with h | h
  · rw [List.getD_eq_getElem?_getD, List.getElem?_append_left h, List.getD_eq_getElem?_getD]
  · rw [List.getD_eq_getElem?_getD, List.getElem?_append_right h, List.getElem?_replicate,
      List.getD_eq_getElem?_getD, List.getElem?_eq_none h]
    split <;> rfl

theorem getD_set (l : List α) (j i : Nat) (v d : α) :
    (l.set j v).getD i d = if j = i ∧ j < l.length then v else l.getD i d := by
  rw [List.getD_eq_getElem?_getD, List.getElem?_set, List.getD_eq_getElem?_getD]
  by_cases h : j = i
  · subst h
    by_cases hl : j < l.length
    · simp [hl]
    · simp only [if_pos rfl, if_neg hl]
      rw [List.getElem?_eq_none (by omega)]
      simp [hl]
  · simp [h]

theorem getCell_setCell (ws : Worksheet) {r c : Nat} (hr : 1 ≤ r) (hc : 1 ≤ c)
    (v : List Char) {r' c' : Nat} (hr' : 1 ≤ r') (hc' : 1 ≤ c') :
    getCell (setCell ws r c v) r' c' =
      if r' = r ∧ c' = c then v else getCell ws r' c' := by
  unfold getCell setCell
  by_cases hre : r' = r
  · subst hre
    have hlen : r' - 1 < (padTo r' ([] : List (List Char)) ws).length := by
      rw [padTo_length]
      omega
    rw [getD_set]
    rw [if_pos ⟨rfl, hlen⟩]
    by_cases hce : c' = c
    · subst hce
      have hlen2 : c' - 1 < (padTo c' ([] : List Char)
          ((padTo r' ([] : List (List Char)) ws).getD (r' - 1) [])).length := by
        rw [padTo_length]
        omega
      rw [getD_set, if_pos ⟨rfl, hlen2⟩, if_pos ⟨rfl, rfl⟩]
    · have hne : ¬ (c - 1 = c' - 1 ∧ c - 1 < (padTo c ([] : List Char)
          ((padTo r' ([] : List (List Char)) ws).getD (r' - 1) [])).length) := by
        intro hcl
        exact hce (by omega)
      rw [getD_set, if_neg hne, getD_padTo, getD_padTo,
        if_neg (fun h : _ ∧ c' = c => hce h.2)]
  · have hne : ¬ (r - 1 = r' - 1 ∧ r - 1 < (padTo r ([] : List (List Char)) ws).length) := by
      intro hcl
      exact hre (by omega)
    rw [getD_set, if_neg hne, getD_padTo, if_neg (fun h : r' = r ∧ _ => hre h.1)]

theorem colPos_pos (headers : List (List Char)) (hdr : List Char) :
    1 ≤ colPos headers hdr := by
  unfold colPos
  cases headers.indexOf? hdr <;> exact Nat.succ_le_succ (Nat.zero_le _)

theorem frame_step {ws : Worksheet} {r0 c0 r c : Nat} (h0r : 1 ≤ r0) (h0c : 1 ≤ c0)
    (hr : 1 ≤ r) (hc : 1 ≤ c) (v : List Char) (hne : ¬ (r = r0 ∧ c = c0)) :
    getCell (setCell ws r0 c0 v) r c = getCell ws r c := by
  rw [getCell_setCell ws h0r h0c v hr hc, if_neg hne]

/-!  ## Claim C5 -/

/-- Claim C5: each call of `update_user_log` writes at most the
`last_time` / `last_link` data cells of the single matched row, plus the
two row-1 header cells when those columns do not exist yet
(`auditCells`); every other cell is unchanged, and when no row matches
(or the sheet connection is down) the worksheet is not modified at
all. -/
theorem C5_update_user_log_frame (gsOk : Bool) (now : List Char) (ws : Worksheet)
    (idc url : List Char) :
    (update_user_log false now ws idc url = ws) ∧
    (matchRowIdx ws idc = none → update_user_log gsOk now ws idc url = ws) ∧
    (∀ idx, matchRowIdx ws idc = some idx →
      ∀ r c, 1 ≤ r → 1 ≤ c → (r, c) ∉ auditCells ws idx →
        getCell (update_user_log true now ws idc url) r c = getCell ws r c) := by
  refine ⟨by simp [update_user_log], ?_, ?_⟩
  · intro hnone
    cases gsOk
    · simp [update_user_log]
    · simp [update_user_log, hnone]
  · intro idx hidx r c hr hc hmem
    have hr1 : (1 : Nat) ≤ idx + 1 := by omega
    have h11 : (1 : Nat) ≤ 1 := le_rfl
    have htc1 : (1 : Nat) ≤ colPos (ws.getD 0 []) lastTimeHdr := colPos_pos _ _
    simp only [update_user_log, Bool.not_true, Bool.false_eq_true, if_false, hidx,
      auditCells] at hmem ⊢
    cases ht : ((ws.getD 0 []).contains lastTimeHdr) with
    | true =>
      have hlc1 : (1 : Nat) ≤ colPos (ws.getD 0 []) lastLinkHdr := colPos_pos _ _
      simp only [ht, eq_self_iff_true, if_true] at hmem ⊢
      cases hl : ((ws.getD 0 []).contains lastLinkHdr) with
      | true =>
        simp only [hl, eq_self_iff_true, if_true] at hmem ⊢
        simp only [List.append_nil, List.mem_append, List.mem_cons, List.not_mem_nil,
          or_false, not_or, Prod.mk.injEq] at hmem
        have hA : ¬ (r = idx + 1 ∧ c = colPos (ws.getD 0 []) lastTimeHdr) := by tauto
        have hB : ¬ (r = idx + 1 ∧ c = colPos (ws.getD 0 []) lastLinkHdr) := by tauto
        rw [frame_step hr1 hlc1 hr hc _ hB, frame_step hr1 htc1 hr hc _ hA]
      | false =>
        simp only [hl, Bool.false_eq_true, if_false] at hmem ⊢
        simp only [List.append_nil, List.mem_append, List.mem_cons, List.not_mem_nil,
          or_false, not_or, Prod.mk.injEq] at hmem
        have hA : ¬ (r = idx + 1 ∧ c = colPos (ws.getD 0 []) lastTimeHdr) := by tauto
        have hB : ¬ (r = idx + 1 ∧ c = colPos (ws.getD 0 []) lastLinkHdr) := by tauto
        have hD : ¬ (r = 1 ∧ c = colPos (ws.getD 0 []) lastLinkHdr) := by tauto
        rw [frame_step hr1 hlc1 hr hc _ hB, frame_step h11 hlc1 hr hc _ hD,
          frame_step hr1 htc1 hr hc _ hA]
    | false =>
      have hlc1 : (1 : Nat) ≤ colPos (ws.getD 0 [] ++ [lastTimeHdr]) lastLinkHdr :=
        colPos_pos _ _
      simp only [ht, Bool.false_eq_true, if_false] at hmem ⊢
      cases hl : ((ws.getD 0 [] ++ [lastTimeHdr]).contains lastLinkHdr) with
      | true =>
        simp only [hl, eq_self_iff_true, if_true] at hmem ⊢
        simp only [List.append_nil, List.mem_append, List.mem_cons, List.not_mem_nil,
          or_false, not_or, Prod.mk.injEq] at hmem
        have hA : ¬ (r = idx + 1 ∧ c = colPos (ws.getD 0 []) lastTimeHdr) := by tauto
        have hB : ¬ (r = idx + 1 ∧
            c = colPos (ws.getD 0 [] ++ [lastTimeHdr]) lastLinkHdr) := by tauto
        have hC : ¬ (r = 1 ∧ c = colPos (ws.getD 0 []) lastTimeHdr) := by tauto
        rw [frame_step hr1 hlc1 hr hc _ hB, frame_step hr1 htc1 hr hc _ hA,
          frame_step h11 htc1 hr hc _ hC]
      | false =>
        simp only [hl, Bool.false_eq_true, if_false] at hmem ⊢
        simp only [List.mem_append, List.mem_cons, List.not_mem_nil,
          or_false, not_or, Prod.mk.injEq] at hmem
        have hA : ¬ (r = idx + 1 ∧ c = colPos (ws.getD 0 []) lastTimeHdr) := by tauto
        have hB : ¬ (r = idx + 1 ∧
            c = colPos (ws.getD 0 [] ++ [lastTimeHdr]) lastLinkHdr) := by tauto
        have hC : ¬ (r = 1 ∧ c = colPos (ws.getD 0 []) lastTimeHdr) := by tauto
        have hD : ¬ (r = 1 ∧
            c = colPos (ws.getD 0 [] ++ [lastTimeHdr]) lastLinkHdr) := by tauto
        rw [frame_step hr1 hlc1 hr hc _ hB, frame_step h11 hlc1 hr hc _ hD,
          frame_step hr1 htc1 hr hc _ hA, frame_step h11 htc1 hr hc _ hC]

/-- Witness for C5 on a concrete two-row worksheet: the matched row is
row 2 (0-based index 1), the cell `(2, 1)` is outside the audit cells,
and it is indeed unchanged. -/
theorem C5_update_user_log_frame_witness :
    matchRowIdx
      [[("user_number").toList, ("id_card").toList], [("7").toList, ("A1").toList]]
      (("a1 ").toList) = some 1 ∧
    ((2, 1) ∉ auditCells
      [[("user_number").toList, ("id_card").toList], [("7").toList, ("A1").toList]] 1) ∧
    getCell (update_user_log true (("2026-10-12 10:00:00").toList)
      [[("user_number").toList, ("id_card").toList], [("7").toList, ("A1").toList]]
      (("a1 ").toList) (("http://x").toList)) 2 1 =
      getCell [[("user_number").toList, ("id_card").toList],
        [("7").toList, ("A1").toList]] 2 1 := by
  refine ⟨by decide, by decide, ?_⟩
  exact (C5_update_user_log_frame true (("2026-10-12 10:00:00").toList)
      [[("user_number").toList, ("id_card").toList], [("7").toList, ("A1").toList]]
      (("a1 ").toList) (("http://x").toList)).2.2 1 (by decide) 2 1
    (by decide) (by decide) (by decide)

/-!  ## Login lemmas -/

/-- The code's row mask is exactly the amended-claim row predicate. -/
theorem loginRowMatch_iff (idf phonef : List Char) (r : UserRow) :
    loginRowMatch (pyUpper (pyStrip idf)) (pyStrip phonef)
        (if (pyStrip phonef).head? = some '0' then (pyStrip phonef).tail
          else pyStrip phonef) r = true ↔
      AmendedRowMatch idf phonef r := by
  unfold loginRowMatch AmendedRowMatch phoneToleratesZero
  by_cases hz : (pyStrip phonef).head? = some '0'
  · rw [if_pos hz]
    simp only [Bool.and_eq_true, Bool.or_eq_true, beq_iff_eq]
    tauto
  · rw [if_neg hz]
    simp only [Bool.and_eq_true, Bool.or_eq_true, beq_iff_eq]
    constructor
    · rintro ⟨hid, hp | hp⟩ <;> exact ⟨hid, Or.inl hp⟩
    · rintro ⟨hid, hp | ⟨hz0, _⟩⟩
      · exact ⟨hid, Or.inl hp⟩
      · exact absurd hz0 hz

/-- Reduction of the POST branch of `login` for a logged-out user, a
live sheet connection and a nonempty table: it is decided by
`List.find?` with the code's row mask. -/
theorem login_post_reduce (users : List UserRow) (idf phonef : List Char)
    (hne : users ≠ []) :
    login_post false true (some users) idf phonef =
      match users.find? (loginRowMatch (pyUpper (pyStrip idf)) (pyStrip phonef)
          (if (pyStrip phonef).head? = some '0' then (pyStrip phonef).tail
            else pyStrip phonef)) with
      | some u => .toIndex u.id_card u.name u.user_number
      | none => .loginPage badCredMsg := by
  cases users with
  | nil => exact absurd rfl hne
  | cons a l => rfl

/-!  ## Claim C3 -/

/-- Counterexample to claim C3 as stated: with a single stored row
`(id_card A1, phone 912345678)`, the submitted pair
`(A1, 0912345678)` logs in (the code accepts the submitted phone with
its leading zero dropped), yet no row has a phone equal to the
submitted phone, so the claimed "if and only if" is false here. -/
theorem C3_login_counterexample :
    ¬ (isLoginSuccess (login_post false true
          (some [⟨("A1").toList, ("912345678").toList, ("BOB").toList, ("7").toList⟩])
          (("A1").toList) (("0912345678").toList)) = true ↔
        ∃ r ∈ [(⟨("A1").toList, ("912345678").toList, ("BOB").toList,
            ("7").toList⟩ : UserRow)],
          C3RowMatch (("A1").toList) (("0912345678").toList) r) := by
  decide

/-- Claim C3 (amended): a POST to `/login` by a logged-out user with a
live, nonempty user table succeeds if and only if some row matches on
trimmed-and-uppercased id card and on trimmed phone — equal to the
trimmed submitted phone either exactly or after dropping a single
leading `'0'` from the submitted phone; the session is populated from
the first such row, and otherwise the wrong-credentials flash is shown
and the login page re-rendered. -/
theorem C3_amended_login (users : List UserRow) (idf phonef : List Char)
    (hne : users ≠ []) :
    (isLoginSuccess (login_post false true (some users) idf phonef) = true ↔
      ∃ r ∈ users, AmendedRowMatch idf phonef r) ∧
    (∀ u, users.find? (loginRowMatch (pyUpper (pyStrip idf)) (pyStrip phonef)
        (if (pyStrip phonef).head? = some '0' then (pyStrip phonef).tail
          else pyStrip phonef)) = some u →
      login_post false true (some users) idf phonef =
        .toIndex u.id_card u.name u.user_number) ∧
    ((¬ ∃ r ∈ users, AmendedRowMatch idf phonef r) →
      login_post false true (some users) idf phonef = .loginPage badCredMsg) := by
  rw [login_post_reduce users idf phonef hne]
  cases hfind : users.find? (loginRowMatch (pyUpper (pyStrip idf)) (pyStrip phonef)
      (if (pyStrip phonef).head? = some '0' then (pyStrip phonef).tail
        else pyStrip phonef)) with
  | none =>
    refine ⟨?_, ?_, fun _ => rfl⟩
    · simp only [isLoginSuccess]
      constructor
      · intro h
        cases h
      · rintro ⟨r, hmem, hmatch⟩
        have := (List.find?_eq_none.mp hfind) r hmem
        exact absurd ((loginRowMatch_iff idf phonef r).mpr hmatch) this
    · intro u hu
      cases hu
  | some u =>
    refine ⟨?_, ?_, ?_⟩
    · simp only [isLoginSuccess]
      constructor
      · intro _
        exact ⟨u, List.mem_of_find?_eq_some hfind,
          (loginRowMatch_iff idf phonef u).mp (List.find?_some hfind)⟩
      · intro _
        trivial
    · intro v hv
      cases hv
      rfl
    · intro hno
      exact absurd ⟨u, List.mem_of_find?_eq_some hfind,
        (loginRowMatch_iff idf phonef u).mp (List.find?_some hfind)⟩ hno

/-- Witness for the amended C3: the leading-zero login of the
counterexample is exactly the success the amended claim predicts. -/
theorem C3_amended_login_witness :
    isLoginSuccess (login_post false true
        (some [⟨("A1").toList, ("912345678").toList, ("BOB").toList, ("7").toList⟩])
        (("A1").toList) (("0912345678").toList)) = true := by
  exact (C3_amended_login
      [⟨("A1").toList, ("912345678").toList, ("BOB").toList, ("7").toList⟩]
      (("A1").toList) (("0912345678").toList) (by decide)).1.mpr (by decide)

/-!  ## Claim C10 -/

/-- Claim C10: login tolerates a leading zero in the submitted phone:
the code's row mask accepts a row exactly when the id card matches
(trimmed, uppercased) and the trimmed stored phone equals the trimmed
submitted phone, or the submitted phone starts with `'0'` and the
stored phone equals it with that single leading zero removed. -/
theorem C10_phone_leading_zero (idf phonef : List Char) (r : UserRow) :
    loginRowMatch (pyUpper (pyStrip idf)) (pyStrip phonef)
        (if (pyStrip phonef).head? = some '0' then (pyStrip phonef).tail
          else pyStrip phonef) r = true ↔
      (pyUpper (pyStrip r.id_card) = pyUpper (pyStrip idf) ∧
        (pyStrip r.phone = pyStrip phonef ∨
          ((pyStrip phonef).head? = some '0' ∧
            pyStrip r.phone = (pyStrip phonef).tail))) :=
  loginRowMatch_iff idf phonef r

/-- Witness for C10: the mask accepts a `0`-prefixed submission against
the stored phone without the zero, and rejects a wrong phone. -/
theorem C10_phone_leading_zero_witness :
    loginRowMatch (pyUpper (pyStrip (("A1").toList))) (pyStrip (("0912345678").toList))
        (if (pyStrip (("0912345678").toList)).head? = some '0'
          then (pyStrip (("0912345678").toList)).tail
          else pyStrip (("0912345678").toList))
        ⟨("A1").toList, ("912345678").toList, ("BOB").toList, ("7").toList⟩ = true := by
  exact (C10_phone_leading_zero (("A1").toList) (("0912345678").toList)
    ⟨("A1").toList, ("912345678").toList, ("BOB").toList, ("7").toList⟩).mpr (by decide)

/-!  ## Handler lemmas -/

/-- The scraper dict is never empty: both shapes carry at least one
key, so `if activities:` always takes the then-branch. -/
theorem scrapeDict_ne_nil (a : ScrapeResult) : (scrapeDict a).isEmpty = false := by
  cases a <;> rfl

theorem str_beq_int (s : List Char) (n : Int) :
    ((PyKey.str s : PyKey) == PyKey.int n) = false := rfl

/-- The integer key `0` is never a key of a scraper dict, whose keys
are all strings: `activities[0]` raises `KeyError` on either shape. -/
theorem dictLookup_int_zero (a : ScrapeResult) :
    dictLookup (.int 0) (scrapeDict a) = none := by
  cases a <;> simp [dictLookup, scrapeDict, List.find?, str_beq_int]

/-- Lines 276-313 always end in the uncaught `KeyError`, whatever the
scraper returned, and never reach `update_user_log`. -/
theorem handleActivities_eq (a : ScrapeResult) :
    handleActivities a = (.serverError keyError0, none) := by
  unfold handleActivities
  rw [scrapeDict_ne_nil a, dictLookup_int_zero a]
  simp

/-- Every outcome of `process_activity`: one of the three guard
redirects, or the `KeyError` 500; in particular never a PDF response,
and never a call of `update_user_log`. -/
theorem process_activity_shape (w : ScrapeWorld) (sess : PASession) (form : PAForm) :
    process_activity w sess form = (.redirectLogin notLoggedInMsg, none) ∨
    process_activity w sess form = (.redirectIndex noUrlMsg, none) ∨
    process_activity w sess form = (.redirectIndex badPlatformMsg, none) ∨
    process_activity w sess form = (.serverError keyError0, none) := by
  unfold process_activity
  split
  · exact Or.inl rfl
  · split
    · exact Or.inr (Or.inl rfl)
    · split
      · exact Or.inr (Or.inl rfl)
      · split
        · exact Or.inr (Or.inr (Or.inl rfl))
        · split
          · exact Or.inr (Or.inr (Or.inr (handleActivities_eq _)))
          · split
            · exact Or.inr (Or.inr (Or.inr (handleActivities_eq _)))
            · exact Or.inr (Or.inr (Or.inl rfl))

/-!  ## Claim C4 -/

/-- Claim C4 (code bug): no run of `/process_activity` ever reaches the
`update_user_log` call, and none ever returns a PDF response: the
handler raises `KeyError` at `activity = activities[0]` (line 278),
before the audit write on line 281, so no audit record is ever written
for any (vacuously "successful") certificate generation. -/
theorem C4_no_audit_write (w : ScrapeWorld) (sess : PASession) (form : PAForm) :
    (process_activity w sess form).2 = none ∧
    ∀ mt ops, (process_activity w sess form).1 ≠ .pdfResponse mt ops := by
  rcases process_activity_shape w sess form with h | h | h | h <;>
    rw [h] <;> exact ⟨rfl, fun mt ops hcon => by cases hcon⟩

/-!  ## Claim C1 -/

unseal Rat.mul Rat.inv Rat.add Rat.sub in
/-- Claim C1 (code bug): on a logged-in POST with a valid Garmin url
whose page scrape succeeds (first conjunct: the scraper returns the
distance/time/elevation/pace statistics), the handler does not return
the PDF certificate: `activities` is a dict, `activities[0]` raises an
uncaught `KeyError` (integer key 0 on string keys), and the response is
an HTTP 500, not `application/pdf`. -/
theorem C1_process_activity_crashes :
    get_garmin_data
        (some (("Distance 6.07 km | Time 36:20 | Pace 5:59 /km | Elevation 7 m").toList)) =
      .ok (("6.07 km").toList) (("00:36:20").toList) (("7 m").toList)
        ('5' :: aposChar :: '5' :: '9' :: quoteChar :: (" /km").toList)
        (("Garmin Connect").toList) ∧
    process_activity
        ⟨fun _ => some (("Distance 6.07 km | Time 36:20 | Pace 5:59 /km | Elevation 7 m").toList),
          fun _ => []⟩
        ⟨some (("A1").toList), some (("BOB").toList), some (("7").toList)⟩
        ⟨some (("http://g").toList), some (("garmin").toList)⟩ =
      (.serverError keyError0, none) := by
  constructor
  · decide
  · decide

/-!  ## Claim C2 -/

/-- Claim C2 (code bug): the three scrape-failure conditions (fewer
than three Strava stat elements; a missing Garmin `og:description`
meta tag; a regex mismatch on the meta content) do produce error
results from the scrapers, but the handler does not flash and redirect
to the index page: the error dict is truthy, the `else` flash branch
(line 312) is unreachable, and `activities[0]` raises an uncaught
`KeyError` (HTTP 500). -/
theorem C2_scrape_failure_not_flashed :
    get_strava_data [("10.0 km").toList, ("36:20").toList] = .err stravaTooFewMsg ∧
    get_garmin_data none = .err garminMetaMsg ∧
    get_garmin_data (some (("an activity page with no stats").toList)) =
      .err garminRegexMsg ∧
    process_activity
        ⟨fun _ => none, fun _ => [("10.0 km").toList, ("36:20").toList]⟩
        ⟨some (("A1").toList), some (("BOB").toList), some (("7").toList)⟩
        ⟨some (("http://s").toList), some (("strava").toList)⟩ =
      (.serverError keyError0, none) ∧
    (process_activity
        ⟨fun _ => none, fun _ => [("10.0 km").toList, ("36:20").toList]⟩
        ⟨some (("A1").toList), some (("BOB").toList), some (("7").toList)⟩
        ⟨some (("http://s").toList), some (("strava").toList)⟩).1 ≠
      .redirectIndex scrapeFailMsg := by
  refine ⟨by decide, by decide, by decide, by decide, ?_⟩
  decide

/-!  ## Claim C7 -/

/-- Claim C7: the certificate drawn by the PDF-generation block is one
page (exactly one `showPage`), and its drawn strings are exactly the
fixed title and congratulation lines — carrying the participant name
and number — followed by the four scraped statistics (distance, time,
elevation gain, average pace), each at fixed coordinates (centred at
x = 306 on US-letter, at the fixed heights 692, 592, 542, 442, 392,
342, 292) that do not depend on any input. -/
theorem C7_certificate_content (fa : Bool) (nm num d t e p : List Char)
    (act : List (List Char × List Char))
    (hd : pyDictGetStr act (("distance").toList) (("N/A").toList) = d)
    (ht : pyDictGetStr act (("time").toList) (("N/A").toList) = t)
    (he : pyDictGetStr act (("elevation_gain").toList) (("N/A").toList) = e)
    (hp : pyDictGetStr act (("avg_pace").toList) (("N/A").toList) = p) :
    pageCount (buildCertificate fa nm num act) = 1 ∧
    drawnTexts (buildCertificate fa nm num act) =
      [("完賽證明").toList,
        ("恭喜 ").toList ++ nm ++ (" (編號: ").toList ++ num ++ ((")").toList),
        ("挑戰成功").toList,
        ("總距離：").toList ++ d,
        ("總時長：").toList ++ t,
        ("最高海拔：").toList ++ e,
        ("平均配速：").toList ++ p] ∧
    drawnCoords (buildCertificate fa nm num act) =
      [(306, 692), (306, 592), (306, 542), (306, 442), (306, 392), (306, 342), (306, 292)] := by
  subst hd ht he hp
  refine ⟨rfl, rfl, ?_⟩
  unfold drawnCoords buildCertificate
  simp only [List.filterMap]
  norm_num [letterW, letterH]

/-- Witness for C7 at a concrete activity dict and participant. -/
theorem C7_certificate_content_witness :
    pageCount (buildCertificate true (("BOB").toList) (("7").toList)
        [(("distance").toList, ("6.07 km").toList), (("time").toList, ("00:36:20").toList),
          (("elevation_gain").toList, ("7 m").toList),
          (("avg_pace").toList, ("fast").toList)]) = 1 ∧
    drawnTexts (buildCertificate true (("BOB").toList) (("7").toList)
        [(("distance").toList, ("6.07 km").toList), (("time").toList, ("00:36:20").toList),
          (("elevation_gain").toList, ("7 m").toList),
          (("avg_pace").toList, ("fast").toList)]) =
      [("完賽證明").toList,
        ("恭喜 ").toList ++ ("BOB").toList ++ (" (編號: ").toList ++ ("7").toList ++ ((")").toList),
        ("挑戰成功").toList,
        ("總距離：").toList ++ ("6.07 km").toList,
        ("總時長：").toList ++ ("00:36:20").toList,
        ("最高海拔：").toList ++ ("7 m").toList,
        ("平均配速：").toList ++ ("fast").toList] ∧
    drawnCoords (buildCertificate true (("BOB").toList) (("7").toList)
        [(("distance").toList, ("6.07 km").toList), (("time").toList, ("00:36:20").toList),
          (("elevation_gain").toList, ("7 m").toList),
          (("avg_pace").toList, ("fast").toList)]) =
      [(306, 692), (306, 592), (306, 542), (306, 442), (306, 392), (306, 342), (306, 292)] :=
  C7_certificate_content true (("BOB").toList) (("7").toList)
    (("6.07 km").toList) (("00:36:20").toList) (("7 m").toList) (("fast").toList)
    [(("distance").toList, ("6.07 km").toList), (("time").toList, ("00:36:20").toList),
      (("elevation_gain").toList, ("7 m").toList), (("avg_pace").toList, ("fast").toList)]
    (by decide) (by decide) (by decide) (by decide)

end SportWeb
